import Mathlib

/-!
Verification development for the department-map dashboard script
(`act_2_render_juanaguirre.py`).

The script is a linear data-preparation pipeline: read a statistics CSV and a
geometry shapefile, normalize the department-name column of each (uppercase,
strip, remove diacritics), left-merge geometry with statistics on the
normalized key, derive a log column and a top-quartile flag, and build four
choropleth figures plus a proportional-marker image.

Strings are modelled as `List Char`.  The pandas/unidecode primitives
(`str.upper`, `str.strip`, `unidecode.unidecode`, `Series.quantile`,
`Series.max`, `DataFrame.merge`) are embedded as executable Lean functions
over the alphabet the data uses (ASCII plus Spanish accented letters).
Nullable numeric columns (`float` with NaN) are modelled as `Option ℚ`.
-/

namespace Act2Render

/-- Whitespace recognised by `str.strip`. -/
def isWs (c : Char) : Bool :=
  c = ' ' || c = '\t' || c = '\n' || c = '\r'

/-- Case table for `str.upper` over the modelled alphabet: ASCII lowercase
plus the Spanish accented lowercase letters. -/
def upperTable : List (Char × Char) :=
  [('a', 'A'), ('b', 'B'), ('c', 'C'), ('d', 'D'), ('e', 'E'), ('f', 'F'),
   ('g', 'G'), ('h', 'H'), ('i', 'I'), ('j', 'J'), ('k', 'K'), ('l', 'L'),
   ('m', 'M'), ('n', 'N'), ('o', 'O'), ('p', 'P'), ('q', 'Q'), ('r', 'R'),
   ('s', 'S'), ('t', 'T'), ('u', 'U'), ('v', 'V'), ('w', 'W'), ('x', 'X'),
   ('y', 'Y'), ('z', 'Z'),
   ('á', 'Á'), ('é', 'É'), ('í', 'Í'), ('ó', 'Ó'), ('ú', 'Ú'),
   ('ñ', 'Ñ'), ('ü', 'Ü')]

/-- Diacritic-removal table for `unidecode.unidecode` over the modelled
alphabet. -/
def uniTable : List (Char × Char) :=
  [('Á', 'A'), ('É', 'E'), ('Í', 'I'), ('Ó', 'O'), ('Ú', 'U'),
   ('Ñ', 'N'), ('Ü', 'U'),
   ('á', 'a'), ('é', 'e'), ('í', 'i'), ('ó', 'o'), ('ú', 'u'),
   ('ñ', 'n'), ('ü', 'u')]

/-- One character of `str.upper`. -/
def pyUpperChar (c : Char) : Char :=
  (upperTable.lookup c).getD c

/-- One character of `unidecode.unidecode`. -/
def unidecodeChar (c : Char) : Char :=
  (uniTable.lookup c).getD c

/-- Remove leading whitespace (the left half of `str.strip`). -/
def lstrip (l : List Char) : List Char :=
  l.dropWhile isWs

/-- Remove trailing whitespace (the right half of `str.strip`). -/
def rstrip (l : List Char) : List Char :=
  (l.reverse.dropWhile isWs).reverse

/-- Model of `str.strip`: remove leading and trailing whitespace. -/
def strip (l : List Char) : List Char :=
  rstrip (lstrip l)

/-- The normalization pipeline applied to one label, as chained on the
statistics column (`astype(str).str.upper().str.strip().map(unidecode)`,
lines 23–29 of the script; `astype(str)` is the identity on text). -/
def normalizeDeptDf (s : List Char) : List Char :=
  ((s.map pyUpperChar) |> strip).map unidecodeChar

/-- The normalization pipeline applied to one label, as chained on the
geometry column (`DPTO_CNMBR`, lines 31–37 of the script). -/
def normalizeDeptGdf (s : List Char) : List Char :=
  ((s.map pyUpperChar) |> strip).map unidecodeChar

/-- The common key normalizer (both columns run the same pipeline). -/
def normalizeLabel (s : List Char) : List Char :=
  ((s.map pyUpperChar) |> strip).map unidecodeChar

/-- Step 1 of the spec's normalizer: coerce to text (identity on text). -/
def coerceText (s : List Char) : List Char := s

/-- The key normalizer as the spec words it: coerce to text, then uppercase,
then strip surrounding whitespace, then remove diacritics, in that order. -/
def specKeyNormalizer (s : List Char) : List Char :=
  (strip ((coerceText s).map pyUpperChar)).map unidecodeChar

/-- The canonical form of a single character under the normalizer
(uppercase then deaccent); two characters differ only by case or accent
marks exactly when their canonical forms agree. -/
def charKey (c : Char) : Char :=
  unidecodeChar (pyUpperChar c)

/-- A row of the geometry source (`gdf`): the department-name attribute
`DPTO_CNMBR` and the polygon geometry, modelled opaquely by an identifier. -/
structure Geo where
  name : List Char
  geomId : Nat
deriving DecidableEq

/-- A row of the statistics source (`df`): the department-name column
`DEPARTAMENTO_DE_OFERTA_DEL_PROGRAMA` and the two numeric columns.
Numeric columns are nullable floats, modelled as `Option ℚ`. -/
structure Stat where
  dept : List Char
  cantidad : Option ℚ
  promedio : Option ℚ
deriving DecidableEq

/-- A row of `merged_programas`: the geometry row together with the
statistics row it matched, or `none` when no statistics row matched
(the left join fills the statistics columns with NaN). -/
structure Merged where
  geo : Geo
  stat : Option Stat
deriving DecidableEq

/-- The left merge `gdf.merge(df, left_on='DPTO_CNMBR',
right_on='DEPARTAMENTO_DE_OFERTA_DEL_PROGRAMA', how='left')` (lines 40–45):
each geometry row is paired with every statistics row whose key equals its
own; a geometry row with no match yields one output row with null
statistics. -/
def mergePandas (gdf : List Geo) (df : List Stat) : List Merged :=
  gdf.flatMap fun g =>
    let ms := df.filter fun s => s.dept == g.name
    if ms.isEmpty then [{ geo := g, stat := none }]
    else ms.map fun s => { geo := g, stat := some s }

/-- Normalize the statistics source's department column (lines 23–29). -/
def normStats (df : List Stat) : List Stat :=
  df.map fun s => { s with dept := normalizeDeptDf s.dept }

/-- Normalize the geometry source's department column (lines 31–37). -/
def normGeo (gdf : List Geo) : List Geo :=
  gdf.map fun g => { g with name := normalizeDeptGdf g.name }

set_option linter.unusedVariables false in
/-- The load/join section of the script (lines 14–45): read the CSV, read
the shapefile, normalize both department columns, left-merge.  The `cache`
argument models the presence/content of the cache artifact the spec
describes; the script has no cache logic, so the argument is never
consulted: every run reads both sources, normalizes and joins. -/
def loader (df : List Stat) (gdf : List Geo)
    (cache : Option (List Merged)) : List Merged :=
  mergePandas (normGeo gdf) (normStats df)

/-- The `CANTIDAD_PROGRAMAS` column of a merged row (null when the join
found no statistics row for the geometry). -/
def cantidadOf (m : Merged) : Option ℚ :=
  m.stat.bind fun s => s.cantidad

/-- The lambda of line 85: `np.log(x) if pd.notnull(x) and x > 0 else None`,
with the logarithm itself abstracted as `lg`. -/
def logCantidad (lg : ℚ → ℝ) (x : Option ℚ) : Option ℝ :=
  match x with
  | some v => if 0 < v then some (lg v) else none
  | none => none

/-- Model of `Series.quantile(0.75)` with pandas' default linear interpolation over
a list of (non-null) values: sort ascending, take position
`h = 0.75 * (n - 1)` and interpolate linearly between the neighbouring
order statistics; `none` on an empty list (pandas returns NaN). -/
def quantile075 (xs : List ℚ) : Option ℚ :=
  match xs with
  | [] => none
  | _ =>
    let s := List.insertionSort (fun a b => a ≤ b) xs
    let n := xs.length
    let i := (3 * (n - 1)) / 4
    let h : ℚ := (3 * ((n : ℚ) - 1)) / 4
    let lo := s.getD i 0
    let hi := s.getD (min (i + 1) (n - 1)) 0
    some (lo + (h - (i : ℚ)) * (hi - lo))

/-- The elementwise comparison of line 151
(`merged_programas['CANTIDAD_PROGRAMAS'] > threshold`): a null value or a
null threshold compares as not-greater, hence `false`. -/
def top25Flag (threshold : Option ℚ) (c : Option ℚ) : Bool :=
  match threshold, c with
  | some t, some v => decide (t < v)
  | _, _ => false

/-- Model of `Series.max()` with pandas' default NaN-skipping: the maximum of the
non-null values, `none` when there are none. -/
def maxQ : List ℚ → Option ℚ
  | [] => none
  | x :: xs => some (xs.foldl max x)

/-- A row of `merged_programas` as the script's later stages see it: the
join result plus the columns added at lines 84–86 (`LOG_CANTIDAD`) and
150–151 (`TOP25`), absent (`none`) until their assignment runs. -/
structure Enriched where
  base : Merged
  logC : Option (Option ℝ)
  top25 : Option Bool

/-- The dataset as it leaves the join, before any derived column exists. -/
def initEnriched (m : Merged) : Enriched :=
  { base := m, logC := none, top25 := none }

/-- Lines 84–86: add the `LOG_CANTIDAD` column to every row. -/
def addLog (lg : ℚ → ℝ) (d : List Enriched) : List Enriched :=
  d.map fun r => { r with logC := some (logCantidad lg (cantidadOf r.base)) }

/-- Lines 150–151: compute `threshold` as the 0.75 quantile of the
`CANTIDAD_PROGRAMAS` column and add the boolean `TOP25` column. -/
def addTop25 (d : List Enriched) : List Enriched :=
  let threshold := quantile075 ((d.map fun r => cantidadOf r.base).filterMap id)
  d.map fun r => { r with top25 := some (top25Flag threshold (cantidadOf r.base)) }

/-- The column maximum `merged_programas['CANTIDAD_PROGRAMAS'].max()` over the enriched
dataset. -/
def maxCantidad (d : List Enriched) : Option ℚ :=
  maxQ ((d.map fun r => cantidadOf r.base).filterMap id)

/-- One iteration of the marker loop (lines 108–112): substitute 0 for a
null count, then `size = cantidad / max * 2000`; when the column maximum is
itself null (all counts null) the division is NaN, modelled as `none`. -/
def markerSize (d : List Enriched) (r : Enriched) : Option ℚ :=
  match maxCantidad d with
  | none => none
  | some m =>
    let cantidad : ℚ := match cantidadOf r.base with | some v => v | none => 0
    some (cantidad / m * 2000)

/-- The marker sizes produced by `generar_mapa_marcadores`, one per row. -/
def markerSizes (d : List Enriched) : List (Option ℚ) :=
  d.map (markerSize d)

/-- A Plotly figure, modelled as the dataset snapshot it was built from
together with the name of its colour column (`px.choropleth` reads the
dataset and does not write to it). -/
structure Figure where
  data : List Enriched
  colorCol : List Char

/-- The five visualization artifacts of the script, in construction order. -/
structure VizOutput where
  fig1 : Figure
  fig2 : Figure
  markers : List (Option ℚ)
  fig3 : Figure
  fig4 : Figure
  finalData : List Enriched

/-- The visualization stage (lines 71–163) with the dataset state passed
explicitly: `fig1` is built from the pristine join result, `LOG_CANTIDAD`
is added, `fig2`, the marker image and `fig3` are built from that state,
`TOP25` is added, and `fig4` is built from the final state. -/
def runViz (lg : ℚ → ℝ) (ds : List Merged) : VizOutput :=
  let d0 := ds.map initEnriched
  let f1 : Figure := { data := d0, colorCol := "CANTIDAD_PROGRAMAS".toList }
  let d1 := addLog lg d0
  let f2 : Figure := { data := d1, colorCol := "LOG_CANTIDAD".toList }
  let img := markerSizes d1
  let f3 : Figure := { data := d1, colorCol := "PROMEDIO_MATRICULADOS".toList }
  let d2 := addTop25 d1
  let f4 : Figure := { data := d2, colorCol := "TOP25".toList }
  { fig1 := f1, fig2 := f2, markers := img, fig3 := f3, fig4 := f4,
    finalData := d2 }

/-- Two labels differ only by letter case, surrounding whitespace, or
accent/diacritic marks: each is some whitespace, then a core, then some
whitespace, and the cores agree character-by-character once case and
accents are canonicalized. -/
def labelEquiv (s t : List Char) : Prop :=
  ∃ a b a2 b2 s0 t0,
    a.all isWs ∧ b.all isWs ∧ a2.all isWs ∧ b2.all isWs ∧
    s = a ++ s0 ++ b ∧ t = a2 ++ t0 ++ b2 ∧
    s0.map charKey = t0.map charKey

/-- Concrete dataset row with a null program count (an unmatched
department). -/
def demoNullRow : Enriched :=
  { base := { geo := { name := ['A'], geomId := 0 }, stat := none },
    logC := none, top25 := none }

/-- Concrete dataset row with program count 5. -/
def demoFiveRow : Enriched :=
  { base := { geo := { name := ['B'], geomId := 1 },
              stat := some { dept := ['B'], cantidad := some 5,
                             promedio := some 1 } },
    logC := none, top25 := none }

/-- Concrete two-row dataset for exercising the marker-size computation. -/
def demoMarkerData : List Enriched := [demoNullRow, demoFiveRow]

/-! ## Helper lemmas about the character tables -/

/-- A successful association-list lookup returns a pair of the list. -/
theorem lookup_mem {l : List (Char × Char)} {a b : Char}
    (h : l.lookup a = some b) : (a, b) ∈ l := by
  induction l with
  | nil => simp [List.lookup] at h
  | cons p t ih =>
    obtain ⟨k, v⟩ := p
    rw [List.lookup_cons] at h
    cases hak : (a == k) with
    | true =>
      have hk : a = k := eq_of_beq hak
      simp only [hak, Option.some.injEq] at h
      subst hk
      subst h
      exact List.mem_cons_self _ _
    | false =>
      simp only [hak] at h
      exact List.mem_cons_of_mem _ (ih h)

/-- Uppercasing never turns whitespace into non-whitespace or back. -/
theorem isWs_pyUpperChar (c : Char) : isWs (pyUpperChar c) = isWs c := by
  cases h : upperTable.lookup c with
  | none => simp [pyUpperChar, h]
  | some d =>
    have hmem := lookup_mem h
    have hall : ∀ p ∈ upperTable, isWs p.1 = false ∧ isWs p.2 = false := by
      decide
    obtain ⟨h1, h2⟩ := hall _ hmem
    simp only [pyUpperChar, h, Option.getD_some]
    rw [h1, h2]

/-- Diacritic removal never turns whitespace into non-whitespace or back. -/
theorem isWs_unidecodeChar (c : Char) : isWs (unidecodeChar c) = isWs c := by
  cases h : uniTable.lookup c with
  | none => simp [unidecodeChar, h]
  | some d =>
    have hmem := lookup_mem h
    have hall : ∀ p ∈ uniTable, isWs p.1 = false ∧ isWs p.2 = false := by
      decide
    obtain ⟨h1, h2⟩ := hall _ hmem
    simp only [unidecodeChar, h, Option.getD_some]
    rw [h1, h2]

/-- The character canonicalizer preserves whitespace-ness. -/
theorem isWs_charKey (c : Char) : isWs (charKey c) = isWs c := by
  rw [charKey, isWs_unidecodeChar, isWs_pyUpperChar]

/-- Canonicalized characters are fixed by a further uppercasing. -/
theorem pyUpperChar_charKey (c : Char) : pyUpperChar (charKey c) = charKey c := by
  cases h1 : upperTable.lookup c with
  | some d =>
    have hmem := lookup_mem h1
    have hall : ∀ p ∈ upperTable,
        pyUpperChar (unidecodeChar p.2) = unidecodeChar p.2 := by decide
    simpa [charKey, pyUpperChar, h1] using hall _ hmem
  | none =>
    cases h2 : uniTable.lookup c with
    | some e =>
      have hmem := lookup_mem h2
      have hall : ∀ p ∈ uniTable, upperTable.lookup p.1 = none →
          pyUpperChar p.2 = p.2 := by decide
      simpa [charKey, pyUpperChar, unidecodeChar, h1, h2] using
        hall _ hmem h1
    | none =>
      simp [charKey, pyUpperChar, unidecodeChar, h1, h2]

/-- Canonicalized characters are fixed by a further diacritic removal. -/
theorem unidecodeChar_charKey (c : Char) :
    unidecodeChar (charKey c) = charKey c := by
  cases h1 : upperTable.lookup c with
  | some d =>
    have hmem := lookup_mem h1
    have hall : ∀ p ∈ upperTable,
        unidecodeChar (unidecodeChar p.2) = unidecodeChar p.2 := by decide
    simpa [charKey, pyUpperChar, h1] using hall _ hmem
  | none =>
    cases h2 : uniTable.lookup c with
    | some e =>
      have hmem := lookup_mem h2
      have hall : ∀ p ∈ uniTable, upperTable.lookup p.1 = none →
          unidecodeChar p.2 = p.2 := by decide
      simpa [charKey, pyUpperChar, unidecodeChar, h1, h2] using
        hall _ hmem h1
    | none =>
      simp [charKey, pyUpperChar, unidecodeChar, h1, h2]

/-- The character canonicalizer is idempotent. -/
theorem charKey_charKey (c : Char) : charKey (charKey c) = charKey c := by
  conv_lhs => rw [charKey, pyUpperChar_charKey]
  exact unidecodeChar_charKey c

/-! ## Helper lemmas about whitespace stripping -/

/-- Dropping a satisfied prefix twice is the same as doing it once. -/
theorem dropWhile_dropWhile (p : Char → Bool) (l : List Char) :
    List.dropWhile p (List.dropWhile p l) = List.dropWhile p l := by
  induction l with
  | nil => rfl
  | cons a t ih =>
    rw [List.dropWhile_cons]
    by_cases h : p a
    · simpa [h] using ih
    · simp [List.dropWhile_cons, h]

/-- Left-stripping is idempotent. -/
theorem lstrip_lstrip (l : List Char) : lstrip (lstrip l) = lstrip l :=
  dropWhile_dropWhile isWs l

/-- Right-stripping is idempotent. -/
theorem rstrip_rstrip (l : List Char) : rstrip (rstrip l) = rstrip l := by
  simp only [rstrip, List.reverse_reverse]
  rw [dropWhile_dropWhile]

/-- The right-stripped list is a prefix of the original. -/
theorem rstrip_prefix (l : List Char) : rstrip l <+: l := by
  have h := List.reverse_prefix.mpr (List.dropWhile_suffix (l := l.reverse) isWs)
  simpa [rstrip] using h

/-- A list that is already left-stripped stays left-stripped after
right-stripping. -/
theorem lstrip_rstrip (l : List Char) (h : lstrip l = l) :
    lstrip (rstrip l) = rstrip l := by
  cases hr : rstrip l with
  | nil => rfl
  | cons a t =>
    obtain ⟨t2, ht2⟩ := rstrip_prefix l
    rw [hr] at ht2
    have hl : l = a :: (t ++ t2) := by
      rw [← ht2]
      simp
    have ha : isWs a = false := by
      rw [hl] at h
      rw [lstrip, List.dropWhile_cons] at h
      by_cases hwa : isWs a
      · exfalso
        rw [if_pos hwa] at h
        have hsub := List.dropWhile_sublist (l := t ++ t2) isWs
        have hlen := hsub.length_le
        rw [h] at hlen
        simp at hlen
      · simpa using hwa
    simp [lstrip, List.dropWhile_cons, ha]

/-- Stripping both ends is idempotent. -/
theorem strip_strip (l : List Char) : strip (strip l) = strip l := by
  rw [strip, strip, lstrip_rstrip (lstrip l) (lstrip_lstrip l), rstrip_rstrip]

/-- An all-whitespace list drops to nothing. -/
theorem lstrip_eq_nil_of_all {a : List Char} (h : a.all isWs) :
    lstrip a = [] :=
  List.dropWhile_eq_nil_iff.mpr (List.all_eq_true.mp h)

/-- Left-stripping ignores an all-whitespace prefix. -/
theorem lstrip_ws_append {a : List Char} (h : a.all isWs) (l : List Char) :
    lstrip (a ++ l) = lstrip l := by
  rw [lstrip, List.dropWhile_append]
  have h0 : List.dropWhile isWs a = [] := lstrip_eq_nil_of_all h
  rw [h0]
  simp [lstrip]

/-- Right-stripping ignores an all-whitespace suffix. -/
theorem rstrip_append_ws {b : List Char} (h : b.all isWs) (l : List Char) :
    rstrip (l ++ b) = rstrip l := by
  have hb : b.reverse.all isWs = true := by rwa [List.all_reverse]
  rw [rstrip, rstrip, List.reverse_append]
  rw [show b.reverse ++ l.reverse = b.reverse ++ l.reverse from rfl]
  rw [← lstrip, ← lstrip, lstrip_ws_append hb]

/-- Stripping ignores all-whitespace padding on both ends. -/
theorem strip_ws_append_ws {a b : List Char} (ha : a.all isWs)
    (hb : b.all isWs) (l : List Char) : strip (a ++ l ++ b) = strip l := by
  rw [strip, List.append_assoc, lstrip_ws_append ha, strip]
  rw [lstrip, List.dropWhile_append]
  by_cases hl : (List.dropWhile isWs l).isEmpty
  · rw [if_pos hl]
    have : lstrip b = [] := lstrip_eq_nil_of_all hb
    rw [← lstrip, this]
    have : lstrip l = [] := by
      simpa [lstrip, List.isEmpty_iff] using hl
    rw [this]
  · rw [if_neg hl, ← lstrip, rstrip_append_ws hb]

/-- A character map that preserves whitespace-ness commutes with
stripping. -/
theorem strip_map (f : Char → Char) (hf : ∀ c, isWs (f c) = isWs c)
    (l : List Char) : strip (l.map f) = (strip l).map f := by
  have hcomp : (isWs ∘ f) = isWs := funext hf
  have hl : ∀ m : List Char, lstrip (m.map f) = (lstrip m).map f := by
    intro m
    rw [lstrip, List.dropWhile_map, hcomp, lstrip]
  have hr : ∀ m : List Char, rstrip (m.map f) = (rstrip m).map f := by
    intro m
    rw [rstrip, ← List.map_reverse, List.dropWhile_map, hcomp, rstrip,
      List.map_reverse]
  rw [strip, strip, hl, hr]

/-! ## Helper lemmas about the label normalizer -/

/-- The normalizer is stripping composed with per-character
canonicalization. -/
theorem normalizeLabel_eq_strip_charKey (s : List Char) :
    normalizeLabel s = strip (s.map charKey) := by
  show (strip (s.map pyUpperChar)).map unidecodeChar = strip (s.map charKey)
  rw [← strip_map unidecodeChar isWs_unidecodeChar, List.map_map]
  rfl

/-- Right-stripping yields a sublist. -/
theorem rstrip_sublist (l : List Char) : List.Sublist (rstrip l) l := by
  have h0 : List.Sublist (l.reverse.dropWhile isWs) l.reverse :=
    List.dropWhile_sublist isWs
  have h1 : List.Sublist (rstrip l).reverse l.reverse := by
    simpa [rstrip] using h0
  exact List.reverse_sublist.mp h1

/-- Members of a stripped list are members of the list. -/
theorem mem_of_mem_strip {x : Char} {l : List Char} (h : x ∈ strip l) :
    x ∈ l := by
  have h2 : List.Sublist (strip l) (lstrip l) := rstrip_sublist (lstrip l)
  have h4 : List.Sublist (lstrip l) l := List.dropWhile_sublist isWs
  exact (h2.trans h4).mem h

/-- A map whose function fixes every member is the identity. -/
theorem map_eq_self_of_mem {f : Char → Char} {l : List Char}
    (h : ∀ x ∈ l, f x = x) : l.map f = l := by
  induction l with
  | nil => rfl
  | cons a t ih =>
    rw [List.map_cons, h a (List.mem_cons_self a t),
      ih fun x hx => h x (List.mem_cons_of_mem a hx)]

/-! ## Helper lemmas about the left merge -/

/-- Finding the first match is taking the head of the filtered list. -/
theorem find_eq_head_filter (p : Stat → Bool) (l : List Stat) :
    l.find? p = (l.filter p).head? := by
  induction l with
  | nil => rfl
  | cons s t ih =>
    by_cases h : p s
    · rw [List.find?_cons_of_pos _ h, List.filter_cons_of_pos h]
      rfl
    · rw [List.find?_cons_of_neg _ (by simpa using h),
        List.filter_cons_of_neg (by simpa using h), ih]

/-- With pairwise-distinct normalized keys, at most one statistics row
matches any given key. -/
theorem filter_key_length_le_one {df : List Stat}
    (h : (df.map Stat.dept).Nodup) (k : List Char) :
    (df.filter fun s => s.dept == k).length ≤ 1 := by
  induction df with
  | nil => simp
  | cons s t ih =>
    rw [List.map_cons, List.nodup_cons] at h
    obtain ⟨hs, ht⟩ := h
    by_cases hk : (s.dept == k) = true
    · have hnil : t.filter (fun s => s.dept == k) = [] := by
        rw [List.filter_eq_nil_iff]
        intro a ha hak
        apply hs
        have h1 : a.dept = k := eq_of_beq hak
        have h2 : s.dept = k := eq_of_beq hk
        rw [h2, ← h1]
        exact List.mem_map_of_mem Stat.dept ha
      simp [List.filter_cons, hk, hnil]
    · simp only [List.filter_cons, hk, if_false]
      exact ih ht

/-- With pairwise-distinct statistics keys, the left merge pairs each
geometry row with its unique match via `find?`. -/
theorem mergePandas_eq_map_find {df : List Stat}
    (h : (df.map Stat.dept).Nodup) (gdf : List Geo) :
    mergePandas gdf df =
      gdf.map fun g =>
        { geo := g, stat := df.find? fun s => s.dept == g.name } := by
  induction gdf with
  | nil => rfl
  | cons g t ih =>
    rw [mergePandas, List.flatMap_cons, List.map_cons, ← mergePandas, ih]
    have hlen := filter_key_length_le_one h g.name
    rw [find_eq_head_filter]
    cases hms : df.filter (fun s => s.dept == g.name) with
    | nil => simp [hms]
    | cons s rest =>
      rw [hms] at hlen
      have hrest : rest = [] := by
        cases rest with
        | nil => rfl
        | cons x xs => simp at hlen
      subst hrest
      simp [hms]

/-- Every matched statistics row in the merge output comes from the
statistics source and matches the key of a geometry row. -/
theorem mergePandas_stat_matched {gdf : List Geo} {df : List Stat}
    {m : Merged} (hm : m ∈ mergePandas gdf df) {s : Stat}
    (hstat : m.stat = some s) :
    s ∈ df ∧ ∃ g ∈ gdf, s.dept = g.name := by
  rw [mergePandas, List.mem_flatMap] at hm
  obtain ⟨g, hg, hblock⟩ := hm
  by_cases hempty : (df.filter fun s => s.dept == g.name).isEmpty
  · rw [if_pos hempty] at hblock
    simp only [List.mem_singleton] at hblock
    rw [hblock] at hstat
    simp at hstat
  · rw [if_neg hempty] at hblock
    rw [List.mem_map] at hblock
    obtain ⟨s2, hs2, hms⟩ := hblock
    rw [← hms] at hstat
    simp only [Option.some.injEq] at hstat
    subst hstat
    rw [List.mem_filter] at hs2
    exact ⟨hs2.1, g, hg, eq_of_beq hs2.2⟩

/-- Canonicalizing the characters of an all-whitespace list leaves it
all-whitespace. -/
theorem all_isWs_map_charKey {a : List Char} (h : a.all isWs) :
    (a.map charKey).all isWs := by
  rw [List.all_map]
  have hc : (isWs ∘ charKey) = isWs := funext isWs_charKey
  rw [hc]
  exact h

/-- Adding the log column changes no base field. -/
theorem map_base_addLog (lg : ℚ → ℝ) (d : List Enriched) :
    (addLog lg d).map Enriched.base = d.map Enriched.base := by
  rw [addLog, List.map_map]
  rfl

/-- Adding the top-quartile column changes no base field. -/
theorem map_base_addTop25 (d : List Enriched) :
    (addTop25 d).map Enriched.base = d.map Enriched.base := by
  rw [addTop25, List.map_map]
  rfl

/-- Wrapping the join rows into enriched rows changes no base field. -/
theorem map_base_init (ds : List Merged) :
    (ds.map initEnriched).map Enriched.base = ds := by
  rw [List.map_map]
  exact List.map_id' ds

/-! ## Claim theorems -/

/-- C6: the key normalizer, applied identically and field-by-field to the
department-name column of both input sources, computes coercion to text,
then uppercasing, then stripping of surrounding whitespace, then
replacement of accented characters by their ASCII equivalents;
in particular "BOGOTÁ" becomes "BOGOTA". -/
theorem C6_normalizer_pipeline :
    (∀ s, normalizeDeptDf s = specKeyNormalizer s) ∧
    (∀ s, normalizeDeptGdf s = specKeyNormalizer s) ∧
    (∀ df, normStats df =
      df.map fun s => { s with dept := specKeyNormalizer s.dept }) ∧
    (∀ gdf, normGeo gdf =
      gdf.map fun g => { g with name := specKeyNormalizer g.name }) ∧
    specKeyNormalizer "BOGOTÁ".toList = "BOGOTA".toList :=
  ⟨fun _ => rfl, fun _ => rfl, fun _ => rfl, fun _ => rfl, by decide⟩

/-- C7: two labels that differ only by letter case, surrounding whitespace,
or accent/diacritic marks receive the identical normalized key. -/
theorem C7_normalizer_invariance {s t : List Char} (h : labelEquiv s t) :
    normalizeLabel s = normalizeLabel t := by
  obtain ⟨a, b, a2, b2, s0, t0, ha, hb, ha2, hb2, hs, ht, hkey⟩ := h
  subst hs ht
  rw [normalizeLabel_eq_strip_charKey, normalizeLabel_eq_strip_charKey,
    List.map_append, List.map_append, List.map_append, List.map_append,
    strip_ws_append_ws (all_isWs_map_charKey ha) (all_isWs_map_charKey hb),
    strip_ws_append_ws (all_isWs_map_charKey ha2) (all_isWs_map_charKey hb2),
    hkey]

/-- C7 witness: normalizing "Bogotá D.C." and "BOGOTA D.C." yields
identical keys. -/
theorem C7_normalizer_invariance_witness :
    labelEquiv "Bogotá D.C.".toList "BOGOTA D.C.".toList ∧
    normalizeLabel "Bogotá D.C.".toList =
      normalizeLabel "BOGOTA D.C.".toList := by
  have h : labelEquiv "Bogotá D.C.".toList "BOGOTA D.C.".toList :=
    ⟨[], [], [], [], "Bogotá D.C.".toList, "BOGOTA D.C.".toList,
      rfl, rfl, rfl, rfl, by simp, by simp, by decide⟩
  exact ⟨h, C7_normalizer_invariance h⟩

/-- C8: the key normalizer is idempotent: normalizing a label twice yields
the same result as normalizing it once. -/
theorem C8_normalizer_idempotent (s : List Char) :
    normalizeLabel (normalizeLabel s) = normalizeLabel s := by
  have hfix : ∀ x ∈ normalizeLabel s, charKey x = x := by
    intro x hx
    rw [normalizeLabel_eq_strip_charKey] at hx
    have hx2 := mem_of_mem_strip hx
    rw [List.mem_map] at hx2
    obtain ⟨c, _, hc⟩ := hx2
    rw [← hc]
    exact charKey_charKey c
  rw [normalizeLabel_eq_strip_charKey (normalizeLabel s),
    map_eq_self_of_mem hfix, normalizeLabel_eq_strip_charKey s, strip_strip]

/-- C1 counterexample: with empty sources and a present, non-empty cache
artifact the loader still returns the (empty) join result, not the cache
contents — the script never reads a cache artifact. -/
theorem C1_cache_not_read :
    loader [] []
        (some [{ geo := { name := ['X'], geomId := 0 }, stat := none }]) ≠
      [{ geo := { name := ['X'], geomId := 0 }, stat := none }] := by
  decide

/-- C1 amended: the loader has no cache policy: on every run, whatever the
state of the cache artifact, it reads both sources, normalizes their keys,
and performs the left join; the cache artifact is never consulted (and no
geometry-simplification or cache-writing step exists in the script). -/
theorem C1_loader_always_joins (df : List Stat) (gdf : List Geo)
    (c c2 : Option (List Merged)) :
    loader df gdf c = mergePandas (normGeo gdf) (normStats df) ∧
    loader df gdf c = loader df gdf c2 :=
  ⟨rfl, rfl⟩

/-- C2 counterexample: with one geometry row and two statistics rows that
share its key, the merged dataset has two records, not one — pandas left
merge duplicates the geometry row for each matching statistics row. -/
theorem C2_duplicate_keys_inflate_merge :
    (mergePandas [{ name := ['A'], geomId := 0 }]
      [{ dept := ['A'], cantidad := some 1, promedio := some 1 },
       { dept := ['A'], cantidad := some 2, promedio := some 3 }]).length
      ≠ 1 := by
  decide

/-- C2 amended: provided the statistics keys are pairwise distinct, the
merged dataset has exactly as many records as the geometry source, each
geometry record appears exactly once (in order), and an unmatched geometry
record receives null statistics fields. -/
theorem C2_merge_preserves_geometry_rows {df : List Stat}
    (h : (df.map Stat.dept).Nodup) (gdf : List Geo) :
    (mergePandas gdf df).length = gdf.length ∧
    (mergePandas gdf df).map Merged.geo = gdf ∧
    ∀ g ∈ gdf, (∀ s ∈ df, s.dept ≠ g.name) →
      { geo := g, stat := none } ∈ mergePandas gdf df := by
  have he := mergePandas_eq_map_find h gdf
  refine ⟨?_, ?_, ?_⟩
  · rw [he, List.length_map]
  · rw [he, List.map_map]
    exact List.map_id' gdf
  · intro g hg hnone
    rw [he, List.mem_map]
    refine ⟨g, hg, ?_⟩
    have hfind : df.find? (fun s => s.dept == g.name) = none := by
      rw [List.find?_eq_none]
      intro s hsmem
      simpa using hnone s hsmem
    rw [hfind]

/-- C2 witness: one statistics row with a distinct key, two geometry rows:
the merge has exactly two records. -/
theorem C2_merge_preserves_geometry_rows_witness :
    (([⟨['A'], some 1, some 2⟩] : List Stat).map Stat.dept).Nodup ∧
    (mergePandas [⟨['A'], 0⟩, ⟨['B'], 1⟩]
      [⟨['A'], some 1, some 2⟩]).length = 2 :=
  ⟨by decide, (C2_merge_preserves_geometry_rows (by decide) _).1⟩

set_option linter.unusedVariables false in
/-- C9: a statistics row whose key matches no geometry record's key
contributes no record to the merged output. -/
theorem C9_unmatched_stats_dropped {gdf : List Geo} {df : List Stat}
    {s : Stat} (hs : s ∈ df) (hnomatch : ∀ g ∈ gdf, g.name ≠ s.dept) :
    ∀ m ∈ mergePandas gdf df, m.stat ≠ some s := by
  intro m hm hcontra
  obtain ⟨_, g, hg, hdept⟩ := mergePandas_stat_matched hm hcontra
  exact hnomatch g hg hdept.symm

/-- C9 witness: a statistics row keyed 'B' with only geometry 'A' present
appears in no merged record. -/
theorem C9_unmatched_stats_dropped_witness :
    (⟨['B'], some 1, some 1⟩ : Stat) ∈
      ([⟨['B'], some 1, some 1⟩] : List Stat) ∧
    (∀ g ∈ ([⟨['A'], 0⟩] : List Geo), g.name ≠ (['B'] : List Char)) ∧
    ∀ m ∈ mergePandas [⟨['A'], 0⟩] [⟨['B'], some 1, some 1⟩],
      m.stat ≠ some ⟨['B'], some 1, some 1⟩ :=
  ⟨by decide, by decide,
    C9_unmatched_stats_dropped (by decide) (by decide)⟩

/-- C3 counterexample: for the counts [10, 20, 30, 1000] the 0.75 quantile
computed by the script is 272.5, not 77.5 as the claim states. -/
theorem C3_quartile_threshold_not_77_5 :
    quantile075 [10, 20, 30, 1000] ≠ some (155 / 2) ∧
    quantile075 [10, 20, 30, 1000] = some (545 / 2) := by
  constructor
  · norm_num [quantile075, List.insertionSort, List.orderedInsert, List.getD]
  · norm_num [quantile075, List.insertionSort, List.orderedInsert, List.getD]

/-- C3 amended: the top-quartile flag is true for exactly the records whose
count strictly exceeds the 75th percentile of the dataset's counts, false
otherwise including for null counts; for counts [10, 20, 30, 1000] the
threshold is 272.5 and only the record with count 1000 is flagged true. -/
theorem C3_top_quartile_flag :
    (∀ d : List Enriched, addTop25 d = d.map fun r =>
      { r with top25 := some (top25Flag
          (quantile075 ((d.map fun x => cantidadOf x.base).filterMap id))
          (cantidadOf r.base)) }) ∧
    (∀ thr c, top25Flag thr c = true ↔
      ∃ t v, thr = some t ∧ c = some v ∧ t < v) ∧
    (∀ thr, top25Flag thr none = false) ∧
    quantile075 [10, 20, 30, 1000] = some (545 / 2) ∧
    List.map (top25Flag (quantile075 [10, 20, 30, 1000]))
      [some 10, some 20, some 30, some 1000] =
      [false, false, false, true] := by
  refine ⟨fun d => rfl, ?_, ?_, ?_, ?_⟩
  · intro thr c
    cases thr with
    | none => simp [top25Flag]
    | some t =>
      cases c with
      | none => simp [top25Flag]
      | some v => simp [top25Flag]
  · intro thr
    cases thr <;> rfl
  · norm_num [quantile075, List.insertionSort, List.orderedInsert, List.getD]
  · norm_num [quantile075, List.insertionSort, List.orderedInsert, List.getD,
      top25Flag]

/-- C4: the derived log-count field is null exactly when the program count
is null or not strictly positive, and equals the natural logarithm of the
count otherwise. -/
theorem C4_log_count_nullability (x : Option ℚ) :
    (logCantidad (fun q : ℚ => Real.log (q : ℝ)) x = none ↔
      x = none ∨ ∃ c, x = some c ∧ c ≤ 0) ∧
    ∀ c, x = some c → 0 < c →
      logCantidad (fun q : ℚ => Real.log (q : ℝ)) x =
        some (Real.log (c : ℝ)) := by
  constructor
  · cases x with
    | none => simp [logCantidad]
    | some v =>
      by_cases h : 0 < v
      · simp only [logCantidad, if_pos h]
        simp only [Option.some.injEq, reduceCtorEq, false_or]
        constructor
        · intro hcontra
          exact absurd hcontra (by simp)
        · rintro ⟨c, hc, hle⟩
          rw [← hc] at hle
          exact absurd h (not_lt.mpr hle)
      · simp only [logCantidad, if_neg h]
        simp only [true_iff]
        exact Or.inr ⟨v, rfl, not_lt.mp h⟩
  · intro c hc hpos
    subst hc
    simp [logCantidad, hpos]

/-- C4 witness: a count of 2 is positive and its log-count is log 2. -/
theorem C4_log_count_nullability_witness :
    ((some (2 : ℚ)) = some (2 : ℚ) ∧ (0 : ℚ) < 2) ∧
    logCantidad (fun q : ℚ => Real.log (q : ℝ)) (some 2) =
      some (Real.log ((2 : ℚ) : ℝ)) :=
  ⟨⟨rfl, by norm_num⟩,
    (C4_log_count_nullability (some 2)).2 2 rfl (by norm_num)⟩

/-- C5: the dataset read by the visualization stage is exactly the join
result enriched by the two derived-column assignments; each chart is built
from the dataset state at its construction point, no chart construction
changes that state, and the base fields of every record survive the whole
stage unchanged. -/
theorem C5_dataset_immutable_after_enrichment (lg : ℚ → ℝ)
    (ds : List Merged) :
    (runViz lg ds).finalData = addTop25 (addLog lg (ds.map initEnriched)) ∧
    (runViz lg ds).fig1.data = ds.map initEnriched ∧
    (runViz lg ds).fig2.data = addLog lg (ds.map initEnriched) ∧
    (runViz lg ds).fig3.data = (runViz lg ds).fig2.data ∧
    (runViz lg ds).markers =
      markerSizes (addLog lg (ds.map initEnriched)) ∧
    (runViz lg ds).fig4.data = (runViz lg ds).finalData ∧
    ((runViz lg ds).finalData).map Enriched.base = ds := by
  refine ⟨rfl, rfl, rfl, rfl, rfl, rfl, ?_⟩
  show (addTop25 (addLog lg (ds.map initEnriched))).map Enriched.base = ds
  rw [map_base_addTop25, map_base_addLog, map_base_init]

set_option linter.unusedVariables false in
/-- C10: in the proportional-marker map, a record with a null count gets a
zero-size marker (the null is substituted by 0 before sizing), and a record
with count v gets marker size v divided by the column maximum, times
2000. -/
theorem C10_marker_sizes {d : List Enriched} {m : ℚ} {r : Enriched}
    (hmax : maxCantidad d = some m) (hr : r ∈ d) :
    markerSizes d = d.map (markerSize d) ∧
    (cantidadOf r.base = none → markerSize d r = some 0) ∧
    ∀ v, cantidadOf r.base = some v →
      markerSize d r = some (v / m * 2000) := by
  refine ⟨rfl, ?_, ?_⟩
  · intro hc
    simp only [markerSize, hmax, hc]
    norm_num
  · intro v hv
    simp only [markerSize, hmax, hv]

/-- C10 witness: in a dataset whose column maximum is 5, the null-count row
gets marker size 0. -/
theorem C10_marker_sizes_witness :
    maxCantidad demoMarkerData = some 5 ∧
    demoNullRow ∈ demoMarkerData ∧
    markerSize demoMarkerData demoNullRow = some 0 :=
  ⟨rfl, List.mem_cons_self _ _,
    (@C10_marker_sizes demoMarkerData 5 demoNullRow rfl
      (List.mem_cons_self _ _)).2.1 rfl⟩

end Act2Render
